import Mathlib

/-!
# Verification of musicscan.py — fingerprint cache / repair / duplicate engine

Shallow embedding of the core logic of `src/musicscan.py` (cache validity gate,
repair pipeline, duplicate grouping and canonical selection, quarantine naming,
interactive quarantine loops, atomic cache save) together with proofs of the
specification's testable properties.

File contents are modelled as lists of byte values, paths as strings, JSON
numbers as rationals, and the external tools (`fpcalc`/`acoustid`, `mp3val`,
`ffmpeg`) as oracles describing the outcome of each invocation.
-/

namespace Musicscan

/-- File contents / fingerprints: an opaque byte sequence. -/
abbrev Bytes := List Nat

/-! ## Python primitives used by the source -/

/-- ASCII whitespace, as skipped by Python's `bytes.fromhex`. -/
def isAsciiWhitespace (c : Char) : Bool :=
  c = ' ' || c = '\t' || c = '\n' || c = '\r' || c = '\x0b' || c = '\x0c'

/-- Value of a single hexadecimal digit, if the character is one. -/
def hexDigitVal (c : Char) : Option Nat :=
  if '0' ≤ c ∧ c ≤ '9' then some (c.toNat - 48)
  else if 'a' ≤ c ∧ c ≤ 'f' then some (c.toNat - 87)
  else if 'A' ≤ c ∧ c ≤ 'F' then some (c.toNat - 55)
  else none

/-- Decode a character list two hex digits at a time: ASCII whitespace may
appear before, after, or between byte pairs, but a pair's second digit must
immediately follow its first — exactly CPython's scanner for
`bytes.fromhex`. -/
def hexPairs : List Char → Option Bytes
  | [] => some []
  | c1 :: rest =>
    if isAsciiWhitespace c1 then hexPairs rest
    else
      match rest with
      | [] => none
      | c2 :: rest2 =>
        match hexDigitVal c1, hexDigitVal c2, hexPairs rest2 with
        | some hi, some lo, some bs => some ((hi * 16 + lo) :: bs)
        | _, _, _ => none

/-- Python `bytes.fromhex`: a sequence of two-hex-digit byte pairs separated
by optional ASCII whitespace (whitespace inside a pair is invalid); `none`
models `ValueError`. -/
def hexDecode (s : String) : Option Bytes :=
  hexPairs s.data

/-- Python `round` on a float to an integer: round half to even. -/
def pythonRound (q : ℚ) : ℤ :=
  let f : ℤ := ⌊q⌋
  let frac : ℚ := q - f
  if frac < 1/2 then f
  else if 1/2 < frac then f + 1
  else if f % 2 = 0 then f else f + 1

/-! ## Cache data model (§3, external interface §6)

A cache entry is a JSON object with the optional keys `mtime`, `size`,
`fingerprint_hex`, `duration`, `low_bitrate_ignored`; a missing key is `none`
(Python `dict.get` returning `None` / `in` returning false). -/

structure CacheEntry where
  mtime : Option ℚ
  size : Option ℤ
  fingerprint_hex : Option String
  duration : Option ℚ
  low_bitrate_ignored : Option Bool
deriving DecidableEq

/-- Result of `os.path.getmtime` / `os.path.getsize` for a file. -/
structure FileStat where
  mtime : ℚ
  size : ℤ
deriving DecidableEq

/-- The entry stored for a stale / unknown file: only the fresh stat data
(`musicscan.py` line 833: `{"mtime": current_mtime, "size": current_size}`). -/
def staleEntry (st : FileStat) : CacheEntry :=
  ⟨some st.mtime, some st.size, none, none, none⟩

/-- Validity gate (`main`, lines 825–834): the disk entry is kept in the
working cache only when both its `mtime` and `size` equal the current stat
results; otherwise only the fresh stat data is carried forward. -/
def validateCacheEntry (disk : Option CacheEntry) (st : FileStat) : CacheEntry :=
  match disk with
  | some e =>
    if e.mtime = some st.mtime ∧ e.size = some st.size then e else staleEntry st
  | none => staleEntry st

/-- Outcome of the fingerprint-preparation pass for one file: either the file
is queued for (re-)analysis by `get_audio_fingerprint`, or its cached
fingerprint and rounded duration are inserted into the grouping map. -/
inductive PrepResult where
  | queued
  | grouped (fp : Bytes) (roundedDuration : ℤ)
deriving DecidableEq

/-- Fingerprint preparation (`main`, lines 857–867): a working-cache entry is
reused iff re-fingerprinting is not forced, both `fingerprint_hex` and
`duration` are present, and the hex string decodes (`bytes.fromhex`); any
decode error queues the file for fresh analysis. -/
def prepareForFingerprint (forceReFingerprint : Bool) (e : CacheEntry) : PrepResult :=
  if forceReFingerprint then .queued
  else
    match e.fingerprint_hex, e.duration with
    | some h, some d =>
      match hexDecode h with
      | some fpBytes => .grouped fpBytes (pythonRound d)
      | none => .queued
    | _, _ => .queued

/-- Composition of the validity gate and the fingerprint-preparation pass:
decides, for one existing file, whether the run reuses cached data for
duplicate grouping or invokes the primary analysis operation on it. -/
def classifyFile (forceReFingerprint : Bool) (disk : Option CacheEntry) (st : FileStat) :
    PrepResult :=
  prepareForFingerprint forceReFingerprint (validateCacheEntry disk st)

/-! ## C1 — cache reuse skips the primary analysis operation -/

/-- C1 (amended): for every file whose cached entry has `mtime` and `size`
equal to the file's current stat results and whose `fingerprint_hex` (a valid
hexadecimal encoding) and `duration` are both present, a run without
`--force-re-fingerprint` reuses the cached fingerprint and duration for
duplicate grouping and never queues the file for the primary analysis
operation (`acoustid.fingerprint_file`). -/
theorem cache_hit_skips_analysis (e : CacheEntry) (st : FileStat) (h : String)
    (bs : Bytes) (d : ℚ)
    (hm : e.mtime = some st.mtime) (hs : e.size = some st.size)
    (hh : e.fingerprint_hex = some h) (hdec : hexDecode h = some bs)
    (hd : e.duration = some d) :
    classifyFile false (some e) st = .grouped bs (pythonRound d) := by
  unfold classifyFile validateCacheEntry prepareForFingerprint
  simp only [hm, hs, and_self, if_true, hh, hd, hdec, if_false, Bool.false_eq_true]

/-- Witness for `cache_hit_skips_analysis` at a concrete entry. -/
theorem cache_hit_skips_analysis_witness :
    classifyFile false (some ⟨some 5, some 100, some ("0aff"), some 180, none⟩) ⟨5, 100⟩ =
      .grouped [10, 255] (pythonRound 180) :=
  cache_hit_skips_analysis _ _ ("0aff") [10, 255] 180 rfl rfl rfl (by decide) rfl

/-- C1 counterexample to the claim as stated: a cache entry whose `mtime` and
`size` match the current stat results and whose `fingerprint_hex` and
`duration` keys are both present is nevertheless queued for fresh analysis
(so `acoustid.fingerprint_file` is invoked on the file) when the stored hex
string fails to decode (`bytes.fromhex` raises `ValueError`,
`musicscan.py` lines 862–867). -/
theorem cache_hit_claim_counterexample :
    (CacheEntry.mk (some 5) (some 100) (some ("zz")) (some 180) none).mtime
        = some (FileStat.mk 5 100).mtime
      ∧ (CacheEntry.mk (some 5) (some 100) (some ("zz")) (some 180) none).size
        = some (FileStat.mk 5 100).size
      ∧ (CacheEntry.mk (some 5) (some 100) (some ("zz")) (some 180) none).fingerprint_hex.isSome
      ∧ (CacheEntry.mk (some 5) (some 100) (some ("zz")) (some 180) none).duration.isSome
      ∧ classifyFile false (some (CacheEntry.mk (some 5) (some 100) (some ("zz")) (some 180) none))
          (FileStat.mk 5 100) = .queued := by
  decide

/-! ## Repair pipeline (`get_audio_fingerprint`, lines 205–390)

The pipeline is modelled as a pure state machine over the file-system
locations it touches: the file itself, the two backup paths
(`<file>.musicscan_mp3val_repair.bak`, `<file>.musicscan_ffmpeg_repair.bak`)
and the ffmpeg temporary output path.  External invocations (each call to
`acoustid.fingerprint_file`, the `mp3val` run, the `ffmpeg` run) are
described by an oracle giving the outcome of the call, should it happen; the
oracle covers all tool invocations that run to completion, and a successful
`acoustid.fingerprint_file` call yields both a duration and a fingerprint. -/

/-- The `(duration, fingerprint)` pair produced by a successful
`acoustid.fingerprint_file` call. -/
structure FpData where
  duration : ℚ
  fp : Bytes
deriving DecidableEq

/-- Outcome of the initial `acoustid.fingerprint_file` call: success,
`FingerprintGenerationError` (with whether its message matches the repair
trigger substrings of lines 225–227 / 306–308), or any other exception
(caught at line 387). -/
inductive InitialFpResult where
  | ok (d : FpData)
  | fpError (recoverable : Bool)
  | otherError
deriving DecidableEq

/-- Static repair configuration: the two CLI flags passed down from `main`
and the startup-time tool availability (`MP3VAL_PATH`, `FFMPEG_PATH`), plus
whether the file name ends in `.mp3`. -/
structure RepairConfig where
  attemptMp3val : Bool
  mp3valAvailable : Bool
  attemptFfmpeg : Bool
  ffmpegAvailable : Bool
  isMp3 : Bool
deriving DecidableEq

/-- Oracle for the external calls the pipeline may make. -/
structure RepairOracle where
  /-- Outcome of the initial fingerprint attempt. -/
  initial : InitialFpResult
  /-- Whether the `mp3val` subprocess exits with return code 0. -/
  mp3valRcZero : Bool
  /-- Content of the file after the in-place `mp3val -f` run. -/
  mp3valAfter : Bytes
  /-- Outcome of the fingerprint retry after `mp3val` (`none` covers both a
  `FingerprintGenerationError` and any other exception at lines 265–268). -/
  mp3valRetry : Option FpData
  /-- `some c`: ffmpeg exits 0 and leaves a non-empty temp output with
  content `c` (line 339); `none`: the run fails or the output is empty. -/
  ffmpegOut : Option Bytes
  /-- Temp output possibly left behind by a failed ffmpeg run. -/
  ffmpegFailLeftover : Option Bytes
  /-- Outcome of the fingerprint retry after the ffmpeg replacement. -/
  ffmpegRetry : Option FpData
deriving DecidableEq

/-- The file-system locations owned by one pipeline run. `none` means the
path does not exist. The file itself always exists in this model. -/
structure PipelineFS where
  file : Bytes
  bakMp3val : Option Bytes
  bakFfmpeg : Option Bytes
  tempOut : Option Bytes
deriving DecidableEq

/-- Guard for the mp3val stage (lines 221–228). -/
def shouldTryMp3val (cfg : RepairConfig) (recoverable : Bool) : Bool :=
  cfg.attemptMp3val && cfg.mp3valAvailable && cfg.isMp3 && recoverable

/-- Guard for the ffmpeg stage (lines 303–309); it re-checks the trigger
substrings on the message of the original error. -/
def shouldTryFfmpeg (cfg : RepairConfig) (recoverable : Bool) : Bool :=
  cfg.attemptFfmpeg && cfg.ffmpegAvailable && recoverable

/-- The mp3val repair stage (lines 230–294): back the file up, run
`mp3val -f` in place, retry fingerprinting if the tool exited 0; the
`finally` block (lines 278–291) removes the backup on success and restores
the original from it otherwise. -/
def mp3valStage (orc : RepairOracle) (fs0 : PipelineFS) : Option FpData × PipelineFS :=
  let fs1 : PipelineFS := { fs0 with bakMp3val := some fs0.file }
  let fs2 : PipelineFS := { fs1 with file := orc.mp3valAfter }
  let retry : Option FpData := if orc.mp3valRcZero then orc.mp3valRetry else none
  match retry with
  | some d => (some d, { fs2 with bakMp3val := none })
  | none => (none, { fs2 with file := fs0.file, bakMp3val := none })

/-- The ffmpeg repair stage (lines 311–382): back the file up, run ffmpeg
into a temp output; on a usable output replace the file with it and retry
fingerprinting; the `finally` block (lines 365–382) removes any leftover
temp output and then removes the backup on success or restores from it
otherwise. -/
def ffmpegStage (orc : RepairOracle) (fsA : PipelineFS) : Option FpData × PipelineFS :=
  let fs1 : PipelineFS := { fsA with bakFfmpeg := some fsA.file }
  match orc.ffmpegOut with
  | some newContent =>
    let fs2 : PipelineFS := { fs1 with tempOut := some newContent }
    let fs3 : PipelineFS := { fs2 with file := newContent, tempOut := none }
    match orc.ffmpegRetry with
    | some d => (some d, { fs3 with bakFfmpeg := none })
    | none => (none, { fs3 with file := fsA.file, bakFfmpeg := none })
  | none =>
    let fs2 : PipelineFS := { fs1 with tempOut := orc.ffmpegFailLeftover }
    (none, { fs2 with tempOut := none, file := fsA.file, bakFfmpeg := none })

/-- The file system as the pipeline first sees it: the file exists, no
backups and no temp output. -/
def startFS (c0 : Bytes) : PipelineFS := ⟨c0, none, none, none⟩

/-- The mp3val stage, run only when its guard holds (lines 230 and 221–228). -/
def runMp3valStage (cfg : RepairConfig) (orc : RepairOracle) (rec : Bool)
    (fs0 : PipelineFS) : Option FpData × PipelineFS :=
  if shouldTryMp3val cfg rec then mp3valStage orc fs0 else (none, fs0)

/-- The ffmpeg stage, reached only when no earlier attempt produced a
fingerprint (lines 296–311); an earlier success returns directly. -/
def runFfmpegStage (cfg : RepairConfig) (orc : RepairOracle) (rec : Bool) :
    Option FpData × PipelineFS → Option FpData × PipelineFS
  | (some d, fs) => (some d, fs)
  | (none, fs) => if shouldTryFfmpeg cfg rec then ffmpegStage orc fs else (none, fs)

/-- Translate the ladder outcome into the Python return value: a success
returns `(duration, fp_bytes)`, everything else returns `(None, None)`
(line 385). -/
def pyResult : Option FpData × PipelineFS → (Option ℚ × Option Bytes) × PipelineFS
  | (some d, fs) => ((some d.duration, some d.fp), fs)
  | (none, fs) => ((none, none), fs)

/-- `get_audio_fingerprint` (lines 205–390): initial attempt, then the
mp3val and ffmpeg stages when applicable.  Returns the `(duration,
fingerprint)` tuple of the Python function (each component optional, as in
the source) together with the final file-system state. -/
def getAudioFingerprint (cfg : RepairConfig) (orc : RepairOracle) (c0 : Bytes) :
    (Option ℚ × Option Bytes) × PipelineFS :=
  match orc.initial with
  | .ok d => ((some d.duration, some d.fp), startFS c0)
  | .otherError => ((none, none), startFS c0)
  | .fpError rec =>
    pyResult (runFfmpegStage cfg orc rec (runMp3valStage cfg orc rec (startFS c0)))

/-- When the mp3val stage does not lead to a fingerprint, its `finally`
block restores the original file from the backup and removes the backup. -/
theorem mp3valStage_fail_fs (orc : RepairOracle) (fs : PipelineFS)
    (h : (mp3valStage orc fs).1 = none) :
    (mp3valStage orc fs).2 = { fs with bakMp3val := none } := by
  by_cases hrc : orc.mp3valRcZero <;>
    cases hretry : orc.mp3valRetry <;>
      simp_all [mp3valStage]

/-- When the mp3val stage leads to a fingerprint, its `finally` block removes
the backup and keeps the repaired file content. -/
theorem mp3valStage_ok_fs (orc : RepairOracle) (fs : PipelineFS) (d : FpData)
    (h : (mp3valStage orc fs).1 = some d) :
    (mp3valStage orc fs).2 = { fs with file := orc.mp3valAfter, bakMp3val := none } := by
  by_cases hrc : orc.mp3valRcZero <;>
    cases hretry : orc.mp3valRetry <;>
      simp_all [mp3valStage]

/-- When the ffmpeg stage does not lead to a fingerprint, its `finally`
block removes any leftover temp output, restores the original from the
backup and removes the backup. -/
theorem ffmpegStage_fail_fs (orc : RepairOracle) (fs : PipelineFS)
    (h : (ffmpegStage orc fs).1 = none) :
    (ffmpegStage orc fs).2 = { fs with bakFfmpeg := none, tempOut := none } := by
  cases hout : orc.ffmpegOut <;>
    cases hretry : orc.ffmpegRetry <;>
      simp_all [ffmpegStage]

/-- When the ffmpeg stage leads to a fingerprint, the file now holds the
ffmpeg output, and neither the backup nor the temp output remains. -/
theorem ffmpegStage_ok_fs (orc : RepairOracle) (fs : PipelineFS) (d : FpData)
    (h : (ffmpegStage orc fs).1 = some d) :
    ∃ c, orc.ffmpegOut = some c ∧
      (ffmpegStage orc fs).2 = { fs with file := c, bakFfmpeg := none, tempOut := none } := by
  cases hout : orc.ffmpegOut <;>
    cases hretry : orc.ffmpegRetry <;>
      simp_all [ffmpegStage]

/-- Master case analysis of one `get_audio_fingerprint` run: the result is
either a failure with the file restored to its initial bytes, or a success
with both components present; and in every case no backup and no temp
output remains on disk. -/
theorem getAudioFingerprint_fs_spec (cfg : RepairConfig) (orc : RepairOracle) (c0 : Bytes) :
    ((getAudioFingerprint cfg orc c0).1 = (none, none) ∧
        (getAudioFingerprint cfg orc c0).2.file = c0
      ∨ ((getAudioFingerprint cfg orc c0).1.1.isSome ∧
          (getAudioFingerprint cfg orc c0).1.2.isSome))
    ∧ (getAudioFingerprint cfg orc c0).2.bakMp3val = none
    ∧ (getAudioFingerprint cfg orc c0).2.bakFfmpeg = none
    ∧ (getAudioFingerprint cfg orc c0).2.tempOut = none := by
  obtain ⟨init, rcz, aft, retM, fout, lft, retF⟩ := orc
  cases init with
  | ok d => simp [getAudioFingerprint, startFS]
  | otherError => simp [getAudioFingerprint, startFS]
  | fpError rec =>
    by_cases h1 : shouldTryMp3val cfg rec <;>
      by_cases h2 : shouldTryFfmpeg cfg rec <;>
        cases rcz <;> cases retM <;> cases fout <;> cases retF <;>
          simp [getAudioFingerprint, runMp3valStage, runFfmpegStage, mp3valStage,
            ffmpegStage, pyResult, startFS, h1, h2]

/-! ## C2 — a failed pipeline leaves the file bit-identical -/

/-- C2: whenever `get_audio_fingerprint` (with any combination of repair
flags) ends in failure — result `(None, None)` — the file's bytes on disk
after the pipeline equal its bytes before the pipeline began: every repair
stage backs the file up before mutating it and restores it from that backup
when the stage does not lead to a successful fingerprint. -/
theorem repair_failure_restores_file (cfg : RepairConfig) (orc : RepairOracle) (c0 : Bytes)
    (hfail : (getAudioFingerprint cfg orc c0).1 = (none, none)) :
    (getAudioFingerprint cfg orc c0).2.file = c0 := by
  rcases (getAudioFingerprint_fs_spec cfg orc c0).1 with ⟨-, h⟩ | ⟨h1, -⟩
  · exact h
  · rw [hfail] at h1; simp at h1

/-- Witness for `repair_failure_restores_file`: both repair stages run and
fail (mp3val exits 0 but the retry fails; ffmpeg replaces the file but the
retry fails); the file nevertheless ends as it began. -/
theorem repair_failure_restores_file_witness :
    (getAudioFingerprint ⟨true, true, true, true, true⟩
      ⟨.fpError true, true, [9, 9], none, some [7, 7], none, none⟩ [1, 2, 3]).2.file
      = [1, 2, 3] :=
  repair_failure_restores_file ⟨true, true, true, true, true⟩
    ⟨.fpError true, true, [9, 9], none, some [7, 7], none, none⟩ [1, 2, 3] (by decide)

/-! ## C3 — a successful pipeline leaves no backup behind -/

/-- C3: whenever `get_audio_fingerprint` succeeds (a fingerprint is
returned, possibly after an mp3val or ffmpeg repair stage), no backup file
created by the pipeline remains on disk afterward, and no temp output
remains either: the succeeding stage's backup is deleted in its `finally`
block, and any earlier stage's backup was already reconciled before the
next stage began. -/
theorem repair_success_leaves_no_backup (cfg : RepairConfig) (orc : RepairOracle)
    (c0 : Bytes) (d : ℚ) (f : Bytes)
    (hok : (getAudioFingerprint cfg orc c0).1 = (some d, some f)) :
    (getAudioFingerprint cfg orc c0).2.bakMp3val = none ∧
      (getAudioFingerprint cfg orc c0).2.bakFfmpeg = none ∧
      (getAudioFingerprint cfg orc c0).2.tempOut = none :=
  (getAudioFingerprint_fs_spec cfg orc c0).2

/-- Witness for `repair_success_leaves_no_backup`: the mp3val stage runs
(after a recoverable initial failure) and its retry succeeds; its backup is
gone afterwards. -/
theorem repair_success_leaves_no_backup_witness :
    (getAudioFingerprint ⟨true, true, false, false, true⟩
      ⟨.fpError true, true, [9, 9], some ⟨3, [5]⟩, none, none, none⟩ [1, 2, 3]).2.bakMp3val
        = none ∧
      (getAudioFingerprint ⟨true, true, false, false, true⟩
        ⟨.fpError true, true, [9, 9], some ⟨3, [5]⟩, none, none, none⟩ [1, 2, 3]).2.bakFfmpeg
        = none ∧
      (getAudioFingerprint ⟨true, true, false, false, true⟩
        ⟨.fpError true, true, [9, 9], some ⟨3, [5]⟩, none, none, none⟩ [1, 2, 3]).2.tempOut
        = none :=
  repair_success_leaves_no_backup ⟨true, true, false, false, true⟩
    ⟨.fpError true, true, [9, 9], some ⟨3, [5]⟩, none, none, none⟩ [1, 2, 3] 3 [5]
    (by decide)

/-! ## C9 — the result is all-or-nothing -/

/-- C9: for every input and every combination of repair flags,
`get_audio_fingerprint` returns either a pair with both duration and
fingerprint present, or exactly `(None, None)`; it never returns exactly
one of the two.  (In this total model every analysis or repair failure
yields `(none, none)` rather than an exception, mirroring the `except`
handlers at lines 216 and 387.) -/
theorem getAudioFingerprint_total (cfg : RepairConfig) (orc : RepairOracle) (c0 : Bytes) :
    (∃ d f, (getAudioFingerprint cfg orc c0).1 = (some d, some f)) ∨
      (getAudioFingerprint cfg orc c0).1 = (none, none) := by
  rcases (getAudioFingerprint_fs_spec cfg orc c0).1 with ⟨h, -⟩ | ⟨h1, h2⟩
  · exact Or.inr h
  · left
    rcases Option.isSome_iff_exists.mp h1 with ⟨d, hd⟩
    rcases Option.isSome_iff_exists.mp h2 with ⟨f, hf⟩
    exact ⟨d, f, Prod.ext hd hf⟩

/-! ## Duplicate grouping (`main`, lines 847–930)

`fingerprint_map` is a `collections.defaultdict(list)` keyed by
`(fp_bytes, round(duration))`; it is modelled as an insertion-ordered
association list.  Appending under a key mirrors
`fingerprint_map[key].append(path)`. -/

/-- Grouping key: `(fp_bytes, round(duration))` (lines 864 and 888). -/
abbrev GroupKey := Bytes × ℤ

/-- Append `p` to the list held under key `k` (creating the key at the end,
as a `defaultdict` does on first access). -/
def addToGroup (m : List (GroupKey × List String)) (k : GroupKey) (p : String) :
    List (GroupKey × List String) :=
  match m with
  | [] => [(k, [p])]
  | (k', ps) :: rest =>
    if k' = k then (k', ps ++ [p]) :: rest else (k', ps) :: addToGroup rest k p

/-- Build the fingerprint map from the per-file results `(path, key)` in
processing order. -/
def buildFingerprintMap (l : List (String × GroupKey)) : List (GroupKey × List String) :=
  l.foldl (fun m e => addToGroup m e.2 e.1) []

/-- Look up the list of files held under a key (empty if absent). -/
def findGroup (m : List (GroupKey × List String)) (k : GroupKey) : List String :=
  match m with
  | [] => []
  | (k', ps) :: rest => if k' = k then ps else findGroup rest k

/-- The `FingerprintGroup` for key `k` after processing the results `l`. -/
def groupOf (l : List (String × GroupKey)) (k : GroupKey) : List String :=
  findGroup (buildFingerprintMap l) k

theorem findGroup_addToGroup (m : List (GroupKey × List String)) (k : GroupKey)
    (p : String) (k₂ : GroupKey) :
    findGroup (addToGroup m k p) k₂ =
      if k₂ = k then findGroup m k₂ ++ [p] else findGroup m k₂ := by
  induction m with
  | nil =>
    by_cases h : k₂ = k <;> simp_all [addToGroup, findGroup, eq_comm]
  | cons hd rest ih =>
    obtain ⟨k', ps⟩ := hd
    by_cases h1 : k' = k <;> by_cases h2 : k₂ = k' <;>
      simp_all [addToGroup, findGroup, eq_comm]

theorem findGroup_foldl (l : List (String × GroupKey)) (m : List (GroupKey × List String))
    (k : GroupKey) :
    findGroup (l.foldl (fun m e => addToGroup m e.2 e.1) m) k =
      findGroup m k ++ (l.filter (fun e => e.2 = k)).map Prod.fst := by
  induction l generalizing m with
  | nil => simp
  | cons e rest ih =>
    simp only [List.foldl_cons, ih, findGroup_addToGroup]
    by_cases h : k = e.2
    · simp [List.filter_cons, h, eq_comm]
    · have h' : ¬ e.2 = k := fun hc => h hc.symm
      simp [List.filter_cons, h, h']

/-- The group for key `k` holds exactly the processed files whose key is
`k`, in processing order. -/
theorem groupOf_eq_filter (l : List (String × GroupKey)) (k : GroupKey) :
    groupOf l k = (l.filter (fun e => e.2 = k)).map Prod.fst := by
  have h := findGroup_foldl l [] k
  simpa [groupOf, buildFingerprintMap, findGroup] using h

/-- Membership in a group is membership among the results with that key. -/
theorem mem_groupOf (l : List (String × GroupKey)) (k : GroupKey) (p : String) :
    p ∈ groupOf l k ↔ (p, k) ∈ l := by
  rw [groupOf_eq_filter]
  simp only [List.mem_map, List.mem_filter]
  constructor
  · rintro ⟨⟨q, k'⟩, ⟨hmem, hk⟩, rfl⟩
    simp only [decide_eq_true_eq] at hk
    subst hk
    exact hmem
  · intro h
    exact ⟨(p, k), ⟨h, by simp⟩, rfl⟩

/-! ## Canonical selection (`main`, lines 918–930, and
`is_in_target_path_pattern`, lines 175–202) -/

/-- The fixed marker (`musicscan.py` line 17). -/
def UNSORTED_PATH_MARKER_SEGMENTS : List String := [("Music"), ("Unsorted")]

/-- The normalized, lowercased path segments of a file path.  Models
`[part.lower() for part in os.path.normpath(filepath).split(os.sep) if part]`
for POSIX paths without `.`/`..` components: `normpath`'s collapsing of
repeated separators is subsumed by dropping empty parts (which the source
does explicitly). -/
def pathParts (filepath : String) : List String :=
  ((filepath.split (fun c => c = '/')).filter (fun s => s ≠ "")).map String.toLower

/-- `is_in_target_path_pattern` (lines 175–202): case-insensitive check for
a contiguous run of directory-name segments. -/
def isInTargetPathPattern (filepath : String) (patternSegments : List String) : Bool :=
  if filepath = "" || patternSegments.isEmpty then false
  else decide ((patternSegments.map String.toLower) <:+: pathParts filepath)

/-- The ascending Boolean comparison corresponding to Python's tuple sort
key `(in_unsorted_folder, -size_sort, filepath)` of
`sort_key_for_duplicates` (lines 920–926).  `szOf` supplies
`os.path.getsize` (with the line-922 default of 0 for missing files built
in). -/
def sortKeyLE (szOf : String → ℤ) (a b : String) : Bool :=
  if isInTargetPathPattern a UNSORTED_PATH_MARKER_SEGMENTS
      ≠ isInTargetPathPattern b UNSORTED_PATH_MARKER_SEGMENTS then
    !(isInTargetPathPattern a UNSORTED_PATH_MARKER_SEGMENTS)
  else if szOf a ≠ szOf b then decide (szOf b < szOf a)
  else decide (a ≤ b)

theorem sortKeyLE_iff (szOf : String → ℤ) (a b : String) :
    sortKeyLE szOf a b = true ↔
      (isInTargetPathPattern a UNSORTED_PATH_MARKER_SEGMENTS = false ∧
        isInTargetPathPattern b UNSORTED_PATH_MARKER_SEGMENTS = true)
      ∨ (isInTargetPathPattern a UNSORTED_PATH_MARKER_SEGMENTS
            = isInTargetPathPattern b UNSORTED_PATH_MARKER_SEGMENTS ∧
          szOf b < szOf a)
      ∨ (isInTargetPathPattern a UNSORTED_PATH_MARKER_SEGMENTS
            = isInTargetPathPattern b UNSORTED_PATH_MARKER_SEGMENTS ∧
          szOf a = szOf b ∧ a ≤ b) := by
  unfold sortKeyLE
  by_cases h1 : isInTargetPathPattern a UNSORTED_PATH_MARKER_SEGMENTS
      = isInTargetPathPattern b UNSORTED_PATH_MARKER_SEGMENTS <;>
    by_cases h2 : szOf a = szOf b <;>
      cases ha : isInTargetPathPattern a UNSORTED_PATH_MARKER_SEGMENTS <;>
        cases hb : isInTargetPathPattern b UNSORTED_PATH_MARKER_SEGMENTS <;>
          simp_all

theorem sortKeyLE_refl (szOf : String → ℤ) (a : String) : sortKeyLE szOf a a = true := by
  simp [sortKeyLE]

theorem sortKeyLE_total (szOf : String → ℤ) (a b : String) :
    sortKeyLE szOf a b || sortKeyLE szOf b a := by
  rw [Bool.or_eq_true, sortKeyLE_iff, sortKeyLE_iff]
  cases ha : isInTargetPathPattern a UNSORTED_PATH_MARKER_SEGMENTS <;>
    cases hb : isInTargetPathPattern b UNSORTED_PATH_MARKER_SEGMENTS <;>
      rcases lt_trichotomy (szOf a) (szOf b) with hs | hs | hs <;>
        rcases le_total a b with hab | hab <;>
          simp_all

theorem sortKeyLE_trans (szOf : String → ℤ) (a b c : String)
    (hab : sortKeyLE szOf a b = true) (hbc : sortKeyLE szOf b c = true) :
    sortKeyLE szOf a c = true := by
  rw [sortKeyLE_iff] at hab hbc ⊢
  rcases hab with ⟨ha1, hb1⟩ | ⟨he1, hs1⟩ | ⟨he1, hs1, hl1⟩ <;>
    rcases hbc with ⟨hb2, hc2⟩ | ⟨he2, hs2⟩ | ⟨he2, hs2, hl2⟩
  · rw [hb1] at hb2; exact absurd hb2 (by simp)
  · exact Or.inl ⟨ha1, by rw [← he2, hb1]⟩
  · exact Or.inl ⟨ha1, by rw [← he2, hb1]⟩
  · exact Or.inl ⟨by rw [he1, hb2], hc2⟩
  · exact Or.inr (Or.inl ⟨he1.trans he2, by omega⟩)
  · exact Or.inr (Or.inl ⟨he1.trans he2, by omega⟩)
  · exact Or.inl ⟨by rw [he1, hb2], hc2⟩
  · exact Or.inr (Or.inl ⟨he1.trans he2, by omega⟩)
  · exact Or.inr (Or.inr ⟨he1.trans he2, by omega, le_trans hl1 hl2⟩)

theorem sortKeyLE_antisymm (szOf : String → ℤ) (a b : String)
    (hab : sortKeyLE szOf a b = true) (hba : sortKeyLE szOf b a = true) : a = b := by
  rw [sortKeyLE_iff] at hab hba
  rcases hab with ⟨ha1, hb1⟩ | ⟨he1, hs1⟩ | ⟨he1, hs1, hl1⟩ <;>
    rcases hba with ⟨hb2, ha2⟩ | ⟨he2, hs2⟩ | ⟨he2, hs2, hl2⟩
  · exact absurd (hb2.symm.trans hb1) (by simp)
  · exact absurd (hb1.symm.trans (he2.trans ha1)) (by simp)
  · exact absurd (hb1.symm.trans (he2.trans ha1)) (by simp)
  · exact absurd ((ha2.symm.trans he1).trans hb2) (by simp)
  · omega
  · omega
  · exact absurd ((ha2.symm.trans he1).trans hb2) (by simp)
  · omega
  · exact le_antisymm hl1 hl2

/-- `files_list.sort(key=sort_key_for_duplicates)` (line 927): Python's
stable sort, modelled by `List.mergeSort`. -/
def sortFilesList (szOf : String → ℤ) (files : List String) : List String :=
  List.mergeSort files (sortKeyLE szOf)

/-- `canonical_file = files_list[0]` after sorting (line 928). -/
def canonicalFile (szOf : String → ℤ) (files : List String) : String :=
  (sortFilesList szOf files).headI

/-- `duplicate_copies = files_list[1:]` (line 929). -/
def duplicateCopies (szOf : String → ℤ) (files : List String) : List String :=
  (sortFilesList szOf files).tail

/-- Duplicate identification (lines 918–930): every group with more than
one member is sorted, its first element declared canonical and the rest its
duplicates; nonempty duplicate lists are recorded. -/
def duplicatesFromMap (szOf : String → ℤ) (m : List (GroupKey × List String)) :
    List (String × List String) :=
  m.foldr (fun g acc =>
    if 1 < g.2.length then
      if duplicateCopies szOf g.2 ≠ [] then
        (canonicalFile szOf g.2, duplicateCopies szOf g.2) :: acc
      else acc
    else acc) []

theorem sortFilesList_pairwise (szOf : String → ℤ) (files : List String) :
    (sortFilesList szOf files).Pairwise (fun a b => sortKeyLE szOf a b = true) :=
  List.sorted_mergeSort (fun a b c => sortKeyLE_trans szOf a b c)
    (sortKeyLE_total szOf) files

/-- The selected canonical file is a member of the group and is minimal in
it under the sort key. -/
theorem canonicalFile_spec (szOf : String → ℤ) (files : List String) (h : files ≠ []) :
    canonicalFile szOf files ∈ files ∧
      ∀ x ∈ files, sortKeyLE szOf (canonicalFile szOf files) x = true := by
  have hperm : (List.mergeSort files (sortKeyLE szOf)).Perm files := List.mergeSort_perm files _
  have hpw := sortFilesList_pairwise szOf files
  rw [sortFilesList] at hpw
  cases hsort : List.mergeSort files (sortKeyLE szOf) with
  | nil =>
    rw [hsort] at hperm
    exact absurd hperm.symm.eq_nil h
  | cons c rest =>
    have hc : canonicalFile szOf files = c := by
      rw [canonicalFile, sortFilesList, hsort]; rfl
    rw [hsort] at hperm hpw
    constructor
    · rw [hc]
      exact hperm.subset (List.mem_cons_self c rest)
    · intro x hx
      rw [hc]
      rcases List.mem_cons.mp (hperm.symm.subset hx) with rfl | hxr
      · exact sortKeyLE_refl szOf x
      · exact (List.pairwise_cons.mp hpw).1 x hxr

/-- Canonical selection depends only on the multiset of group members. -/
theorem canonicalFile_perm (szOf : String → ℤ) (f₁ f₂ : List String)
    (hperm : f₁.Perm f₂) (h : f₁ ≠ []) :
    canonicalFile szOf f₁ = canonicalFile szOf f₂ := by
  have h₂ : f₂ ≠ [] := fun hn => h (by rw [hn] at hperm; exact hperm.eq_nil)
  obtain ⟨hm₁, hmin₁⟩ := canonicalFile_spec szOf f₁ h
  obtain ⟨hm₂, hmin₂⟩ := canonicalFile_spec szOf f₂ h₂
  exact sortKeyLE_antisymm szOf _ _
    (hmin₁ _ (hperm.symm.subset hm₂))
    (hmin₂ _ (hperm.subset hm₁))

/-- Every duplicate set recorded in the output has a nonempty duplicate
list (so together with its canonical it has at least two members). -/
theorem duplicatesFromMap_sets_nontrivial (szOf : String → ℤ)
    (m : List (GroupKey × List String)) :
    ∀ e ∈ duplicatesFromMap szOf m, e.2 ≠ [] := by
  induction m with
  | nil => intro e he; simp [duplicatesFromMap] at he
  | cons g rest ih =>
    intro e he
    simp only [duplicatesFromMap, List.foldr_cons] at he
    split_ifs at he with h1 h2
    · rcases List.mem_cons.mp he with rfl | hmem
      · exact h2
      · exact ih e hmem
    · exact ih e he
    · exact ih e he

/-! ## C4 — grouping by `(fingerprint, round(duration))` -/

/-- C4: duplicate grouping keys files by `(fingerprint bytes, rounded
duration)`: any two processed files with the same key land in the same
`FingerprintGroup`; membership in a group is independent of the processing
order; and a group containing exactly one file never contributes an entry
to the duplicates output (every recorded set has a nonempty duplicate
list). -/
theorem duplicate_grouping_correct
    (l l₂ : List (String × GroupKey)) (p₁ p₂ p : String) (k : GroupKey)
    (szOf : String → ℤ) (m : List (GroupKey × List String))
    (h₁ : (p₁, k) ∈ l) (h₂ : (p₂, k) ∈ l) (hperm : l.Perm l₂) :
    (p₁ ∈ groupOf l k ∧ p₂ ∈ groupOf l k)
      ∧ (p ∈ groupOf l k ↔ p ∈ groupOf l₂ k)
      ∧ (∀ e ∈ duplicatesFromMap szOf m, e.2 ≠ [])
      ∧ (∀ (k₂ : GroupKey) (ps : List String) (m₂ : List (GroupKey × List String)),
          ps.length ≤ 1 →
            duplicatesFromMap szOf ((k₂, ps) :: m₂) = duplicatesFromMap szOf m₂) := by
  refine ⟨⟨(mem_groupOf l k p₁).mpr h₁, (mem_groupOf l k p₂).mpr h₂⟩, ?_,
    duplicatesFromMap_sets_nontrivial szOf m, ?_⟩
  · rw [mem_groupOf, mem_groupOf]
    exact ⟨fun h => hperm.subset h, fun h => hperm.symm.subset h⟩
  · intro k₂ ps m₂ hle
    simp only [duplicatesFromMap, List.foldr_cons]
    rw [if_neg (by omega)]

/-- Witness for `duplicate_grouping_correct` on two concrete files sharing
a key. -/
theorem duplicate_grouping_correct_witness :
    ((("a") ∈ groupOf [(("a"), ([1], 3)), (("b"), ([1], 3))] ([1], 3)
        ∧ ("b") ∈ groupOf [(("a"), ([1], 3)), (("b"), ([1], 3))] ([1], 3))
      ∧ (("a") ∈ groupOf [(("a"), ([1], 3)), (("b"), ([1], 3))] ([1], 3)
          ↔ ("a") ∈ groupOf [(("a"), ([1], 3)), (("b"), ([1], 3))] ([1], 3))
      ∧ (∀ e ∈ duplicatesFromMap (fun _ => 0) [], e.2 ≠ [])
      ∧ (∀ (k₂ : GroupKey) (ps : List String) (m₂ : List (GroupKey × List String)),
          ps.length ≤ 1 →
            duplicatesFromMap (fun _ => 0) ((k₂, ps) :: m₂)
              = duplicatesFromMap (fun _ => 0) m₂)) :=
  duplicate_grouping_correct [(("a"), ([1], 3)), (("b"), ([1], 3))]
    [(("a"), ([1], 3)), (("b"), ([1], 3))] ("a") ("b") ("a") ([1], 3)
    (fun _ => 0) [] (by decide) (by decide) (List.Perm.refl _)

/-! ## C5 — deterministic canonical selection -/

/-- C5: for every `FingerprintGroup` with at least two members, the
canonical file is the minimum of the group under the sort key
`(isInUnsortedFolder ascending, file size descending, path ascending)`; the
remaining members (the sorted list minus the canonical) are exactly its
duplicates; and the selection depends only on the members (paths, sizes,
unsorted-folder flags), not on their order, so identical inputs always
yield the same canonical file. -/
theorem canonical_selection_correct (szOf : String → ℤ) (files files₂ : List String)
    (hlen : 2 ≤ files.length) (hperm : files.Perm files₂) :
    canonicalFile szOf files ∈ files
      ∧ (∀ x ∈ files, sortKeyLE szOf (canonicalFile szOf files) x = true)
      ∧ (canonicalFile szOf files :: duplicateCopies szOf files).Perm files
      ∧ canonicalFile szOf files = canonicalFile szOf files₂ := by
  have hne : files ≠ [] := by
    intro h; rw [h] at hlen; simp at hlen
  obtain ⟨hm, hmin⟩ := canonicalFile_spec szOf files hne
  refine ⟨hm, hmin, ?_, canonicalFile_perm szOf files files₂ hperm hne⟩
  have hperm' : (List.mergeSort files (sortKeyLE szOf)).Perm files := List.mergeSort_perm files _
  cases hsort : List.mergeSort files (sortKeyLE szOf) with
  | nil =>
    rw [hsort] at hperm'
    exact absurd hperm'.symm.eq_nil hne
  | cons c rest =>
    have hc : canonicalFile szOf files = c := by
      rw [canonicalFile, sortFilesList, hsort]; rfl
    have ht : duplicateCopies szOf files = rest := by
      rw [duplicateCopies, sortFilesList, hsort]; rfl
    rw [hc, ht, ← hsort]
    exact hperm'

/-- Witness for `canonical_selection_correct` on a concrete two-member
group. -/
theorem canonical_selection_correct_witness :
    canonicalFile (fun _ => 0) [("b"), ("a")] ∈ [("b"), ("a")]
      ∧ (∀ x ∈ [("b"), ("a")],
          sortKeyLE (fun _ => 0) (canonicalFile (fun _ => 0) [("b"), ("a")]) x = true)
      ∧ (canonicalFile (fun _ => 0) [("b"), ("a")]
          :: duplicateCopies (fun _ => 0) [("b"), ("a")]).Perm [("b"), ("a")]
      ∧ canonicalFile (fun _ => 0) [("b"), ("a")]
          = canonicalFile (fun _ => 0) [("b"), ("a")] :=
  canonical_selection_correct (fun _ => 0) [("b"), ("a")] [("b"), ("a")]
    (by decide) (List.Perm.refl _)

/-! ## Quarantine naming (`ensure_unique_quarantine_filename`, lines 116–135,
and `move_file_to_quarantine`, lines 137–173)

The file system is modelled as the finite list of existing paths.
`os.path.join` is modelled for a POSIX directory path with no trailing
separator. -/

/-- One decimal digit character. -/
def decDigit (n : Nat) : Char :=
  if n = 0 then '0' else if n = 1 then '1' else if n = 2 then '2'
  else if n = 3 then '3' else if n = 4 then '4' else if n = 5 then '5'
  else if n = 6 then '6' else if n = 7 then '7' else if n = 8 then '8' else '9'

/-- Digits of `n`, most significant first, with structural fuel. -/
def natDecAux : Nat → Nat → List Char
  | 0, _ => []
  | fuel + 1, n => if n = 0 then [] else natDecAux fuel (n / 10) ++ [decDigit (n % 10)]

/-- Python `str` of a nonnegative integer (the `{counter}` of line 132). -/
def natDec (n : Nat) : String :=
  if n = 0 then ("0") else ⟨natDecAux n n⟩

/-- `os.path.splitext` on a plain file name (no separators): the extension
begins at the last dot, unless every character before that dot is itself a
dot (a leading-dots name such as `.bashrc` has no extension). -/
def splitExt (name : String) : String × String :=
  match name.data.reverse.findIdx? (fun c => c = '.') with
  | none => (name, "")
  | some i =>
    if (name.data.reverse.drop (i + 1)).any (fun c => c ≠ '.') then
      (⟨(name.data.reverse.drop (i + 1)).reverse⟩, ⟨(name.data.reverse.take (i + 1)).reverse⟩)
    else (name, "")

/-- `os.path.join` for a directory with no trailing separator. -/
def joinPath (dir name : String) : String :=
  dir ++ ("/") ++ name

/-- The candidate destination file name tried at step `n`: the original
name, then `base (1)ext`, `base (2)ext`, … (line 132). -/
def quarantineCandidate (orig : String) : Nat → String
  | 0 => orig
  | k + 1 => (splitExt orig).1 ++ (" (") ++ natDec (k + 1) ++ (")") ++ (splitExt orig).2

/-- The `while os.path.exists(full_dest_path)` loop of lines 131–134, with
structural fuel; `counter` is the next counter value to try. -/
def uniqueNameLoop (fs : List String) (dir base ext : String) :
    Nat → Nat → String → String
  | 0, _, dest => joinPath dir dest
  | fuel + 1, counter, dest =>
    if joinPath dir dest ∈ fs then
      uniqueNameLoop fs dir base ext fuel (counter + 1)
        (base ++ (" (") ++ natDec counter ++ (")") ++ ext)
    else joinPath dir dest

/-- `ensure_unique_quarantine_filename` (lines 116–135): returns the full
destination path built from the first collision-free candidate name.  A
fuel of `fs.length + 1` always suffices (`exists_free_candidate` below). -/
def ensureUniqueQuarantineFilename (fs : List String) (quarantineDir origName : String) :
    String :=
  uniqueNameLoop fs quarantineDir (splitExt origName).1 (splitExt origName).2
    (fs.length + 1) 1 origName

/-- `os.path.basename` for POSIX paths. -/
def pyBasename (p : String) : String :=
  ⟨(p.data.reverse.takeWhile (fun c => c ≠ '/')).reverse⟩

/-- `move_file_to_quarantine` (lines 137–173): skip a vanished source,
compute a collision-free destination, and (outside dry-run) move the file.
Returns the Python function's Boolean together with the new file system. -/
def moveFileToQuarantine (fs : List String) (sourceFilepath quarantineBaseDir : String)
    (dryRun : Bool) : Bool × List String :=
  if sourceFilepath ∈ fs then
    let dest := ensureUniqueQuarantineFilename fs quarantineBaseDir (pyBasename sourceFilepath)
    if dryRun then (true, fs) else (true, fs.erase sourceFilepath ++ [dest])
  else (false, fs)

/-- Decimal parse, used to show `natDec` is injective. -/
def decVal (cs : List Char) : Nat :=
  cs.foldl (fun a c => a * 10 + (c.toNat - 48)) 0

theorem decDigit_toNat (n : Nat) (h : n < 10) : (decDigit n).toNat - 48 = n := by
  interval_cases n <;> decide

theorem decVal_append (cs : List Char) (c : Char) :
    decVal (cs ++ [c]) = decVal cs * 10 + (c.toNat - 48) := by
  simp [decVal, List.foldl_append]

theorem decVal_natDecAux (fuel : Nat) : ∀ n, n ≤ fuel → decVal (natDecAux fuel n) = n := by
  induction fuel with
  | zero =>
    intro n h
    interval_cases n
    simp [natDecAux, decVal]
  | succ fuel ih =>
    intro n h
    by_cases hn : n = 0
    · simp [natDecAux, hn, decVal]
    · have hdiv : n / 10 ≤ fuel := by omega
      simp only [natDecAux, hn, if_false]
      rw [decVal_append, ih _ hdiv, decDigit_toNat _ (by omega)]
      omega

theorem decVal_natDec (n : Nat) : decVal (natDec n).data = n := by
  by_cases hn : n = 0
  · subst hn; decide
  · simp only [natDec, hn, if_false]
    exact decVal_natDecAux n n le_rfl

theorem natDec_injective : Function.Injective natDec := by
  intro m n h
  have h2 := congrArg (fun s => decVal s.data) h
  simpa [decVal_natDec] using h2

theorem natDec_length_pos (n : Nat) : 0 < (natDec n).length := by
  by_cases hn : n = 0
  · subst hn; decide
  · simp only [natDec, hn, if_false]
    have : natDecAux n n ≠ [] := by
      cases n with
      | zero => omega
      | succ k => simp [natDecAux]
    show 0 < (natDecAux n n).length
    exact List.length_pos.mpr this

theorem splitExt_append (name : String) :
    (splitExt name).1 ++ (splitExt name).2 = name := by
  unfold splitExt
  cases hidx : name.data.reverse.findIdx? (fun c => c = '.') with
  | none => simp
  | some i =>
    by_cases hany : ((name.data.reverse.drop (i + 1)).any (fun c => c ≠ '.')) = true
    · simp only [hany, if_true]
      apply String.ext
      show (name.data.reverse.drop (i + 1)).reverse ++ (name.data.reverse.take (i + 1)).reverse
          = name.data
      rw [← List.reverse_append, List.take_append_drop, List.reverse_reverse]
    · simp only [hany, if_false, Bool.false_eq_true]
      simp

theorem splitExt_length (name : String) :
    (splitExt name).1.length + (splitExt name).2.length = name.length := by
  have h := congrArg String.length (splitExt_append name)
  simpa using h

theorem quarantineCandidate_succ_length (orig : String) (k : Nat) :
    (quarantineCandidate orig (k + 1)).length
      = orig.length + 3 + (natDec (k + 1)).length := by
  have h := splitExt_length orig
  simp [quarantineCandidate, String.length_append]
  have h2 : String.length (" (") = 2 := by decide
  have h3 : String.length (")") = 1 := by decide
  omega

theorem quarantineCandidate_injective (orig : String) :
    Function.Injective (quarantineCandidate orig) := by
  intro m n h
  match m, n with
  | 0, 0 => rfl
  | 0, k + 1 =>
    exfalso
    have hl := congrArg String.length h
    rw [quarantineCandidate_succ_length] at hl
    have := natDec_length_pos (k + 1)
    simp only [quarantineCandidate] at hl
    omega
  | k + 1, 0 =>
    exfalso
    have hl := congrArg String.length h
    rw [quarantineCandidate_succ_length] at hl
    have := natDec_length_pos (k + 1)
    simp only [quarantineCandidate] at hl
    omega
  | i + 1, j + 1 =>
    have hdata := congrArg String.data h
    simp only [quarantineCandidate, String.data_append, List.append_assoc] at hdata
    have h1 := List.append_cancel_left hdata
    have h2 := List.append_cancel_left h1
    have h3 := List.append_cancel_right h2
    have h4 : natDec (i + 1) = natDec (j + 1) := String.ext h3
    have := natDec_injective h4
    omega

theorem joinPath_injective (dir : String) : Function.Injective (joinPath dir) := by
  intro a b h
  have hdata := congrArg String.data h
  simp only [joinPath, String.data_append, List.append_assoc] at hdata
  exact String.ext (List.append_cancel_left (List.append_cancel_left hdata))

/-- Among the first `fs.length + 1` candidate destinations, at least one
does not exist yet. -/
theorem exists_free_candidate (fs : List String) (dir orig : String) :
    ∃ n, n ≤ fs.length ∧ joinPath dir (quarantineCandidate orig n) ∉ fs := by
  by_contra hc
  push_neg at hc
  have hinj : Function.Injective (fun n => joinPath dir (quarantineCandidate orig n)) :=
    fun a b h => quarantineCandidate_injective orig (joinPath_injective dir h)
  have hnodup : ((List.range (fs.length + 1)).map
      (fun n => joinPath dir (quarantineCandidate orig n))).Nodup :=
    (List.nodup_range _).map hinj
  have hsub : ((List.range (fs.length + 1)).map
      (fun n => joinPath dir (quarantineCandidate orig n))) ⊆ fs := by
    intro x hx
    rcases List.mem_map.mp hx with ⟨n, hn, rfl⟩
    have hlt := List.mem_range.mp hn
    exact hc n (by omega)
  have hle := (List.subperm_of_subset hnodup hsub).length_le
  simp at hle

/-- The collision loop, started at counter `k + 1` with the candidate for
step `k` in hand, returns the first collision-free candidate at or after
step `k`, provided one exists within the available fuel. -/
theorem uniqueNameLoop_spec (fs : List String) (dir orig : String) :
    ∀ fuel k,
      (∃ j, j < fuel ∧ joinPath dir (quarantineCandidate orig (k + j)) ∉ fs) →
      ∃ n, k ≤ n ∧
        uniqueNameLoop fs dir (splitExt orig).1 (splitExt orig).2 fuel (k + 1)
            (quarantineCandidate orig k)
          = joinPath dir (quarantineCandidate orig n)
        ∧ joinPath dir (quarantineCandidate orig n) ∉ fs
        ∧ ∀ m, k ≤ m → m < n → joinPath dir (quarantineCandidate orig m) ∈ fs := by
  intro fuel
  induction fuel with
  | zero =>
    intro k h
    rcases h with ⟨j, hj, _⟩
    omega
  | succ fuel ih =>
    intro k h
    by_cases hmem : joinPath dir (quarantineCandidate orig k) ∈ fs
    · rcases h with ⟨j, hj, hfree⟩
      have hj0 : j ≠ 0 := by
        rintro rfl
        exact hfree (by simpa using hmem)
      have h' : ∃ j', j' < fuel ∧
          joinPath dir (quarantineCandidate orig ((k + 1) + j')) ∉ fs := by
        refine ⟨j - 1, by omega, ?_⟩
        have hkj : (k + 1) + (j - 1) = k + j := by omega
        rw [hkj]
        exact hfree
      obtain ⟨n, hkn, heq, hfree', hmin⟩ := ih (k + 1) h'
      refine ⟨n, by omega, ?_, hfree', ?_⟩
      · rw [uniqueNameLoop]
        simp only [hmem, if_true]
        exact heq
      · intro m hm1 hm2
        rcases Nat.eq_or_lt_of_le hm1 with rfl | hlt
        · exact hmem
        · exact hmin m (by omega) hm2
    · refine ⟨k, le_rfl, ?_, hmem, ?_⟩
      · rw [uniqueNameLoop]
        simp only [hmem, if_false]
      · intro m h1 h2
        exact absurd h2 (by omega)

/-! ## C6 — collision-free quarantine destinations -/

/-- C6: `ensure_unique_quarantine_filename` returns the destination built
from the smallest counter with no collision: the original name first, then
`name (1).ext`, `name (2).ext`, …; every candidate before the chosen one
collides and the chosen one does not.  Consequently, moving two different
files both named `a.mp3` into the same quarantine directory in sequence
never overwrites the first: the first lands as `a.mp3` and the second as
`a (1).mp3`. -/
theorem quarantine_unique_naming :
    (∀ (fs : List String) (dir orig : String), ∃ n,
        ensureUniqueQuarantineFilename fs dir orig = joinPath dir (quarantineCandidate orig n)
        ∧ joinPath dir (quarantineCandidate orig n) ∉ fs
        ∧ ∀ m, m < n → joinPath dir (quarantineCandidate orig m) ∈ fs)
    ∧ (moveFileToQuarantine [("/m/x/a.mp3"), ("/m/y/a.mp3")] ("/m/x/a.mp3") ("/q") false).2
        = [("/m/y/a.mp3"), ("/q/a.mp3")]
    ∧ (moveFileToQuarantine
          (moveFileToQuarantine [("/m/x/a.mp3"), ("/m/y/a.mp3")] ("/m/x/a.mp3") ("/q")
            false).2
          ("/m/y/a.mp3") ("/q") false).2
        = [("/q/a.mp3"), ("/q/a (1).mp3")] := by
  refine ⟨?_, by decide, by decide⟩
  intro fs dir orig
  obtain ⟨n₀, hle, hfree⟩ := exists_free_candidate fs dir orig
  obtain ⟨n, hn0, heq, hfree', hmin⟩ :=
    uniqueNameLoop_spec fs dir orig (fs.length + 1) 0
      ⟨n₀, by omega, by simpa using hfree⟩
  exact ⟨n, heq, hfree', fun m hm => hmin m (by omega) hm⟩

/-! ## Interactive quarantine loops (`prompt_to_remove_duplicates`,
lines 392–480, and the low-bitrate loop of `main`, lines 1003–1041)

User input is an infinite stream `input : Nat → Resp`, consumed one answer
per prompt via an index in the state. -/

/-- A single-character user response (`y` / `n` / `a` / `q` / anything
else). -/
inductive Resp where
  | yes
  | no
  | all
  | quit
  | invalid
deriving DecidableEq

/-- State of the duplicates prompt loop: the file system, the input cursor,
the `remove_all_mode` / `quit_mode` flags and `files_quarantined_count`. -/
structure DupPromptState where
  fs : List String
  idx : Nat
  removeAllMode : Bool
  quitMode : Bool
  quarantinedCount : Nat
deriving DecidableEq

/-- Perform the move of lines 462–465 and count it on success. -/
def dupMove (quarantinePath : String) (dryRun : Bool) (s : DupPromptState)
    (f : String) : DupPromptState :=
  if (moveFileToQuarantine s.fs f quarantinePath dryRun).1 then
    { s with fs := (moveFileToQuarantine s.fs f quarantinePath dryRun).2,
             quarantinedCount := s.quarantinedCount + 1 }
  else
    { s with fs := (moveFileToQuarantine s.fs f quarantinePath dryRun).2 }

/-- Processing of one duplicate file (lines 421–465): skipped entirely
after a quit; vanished files are skipped; `remove_all_mode` moves without
prompting; otherwise one answer is consumed and acted on. -/
def processDupFile (input : Nat → Resp) (quarantinePath : String) (dryRun : Bool)
    (s : DupPromptState) (f : String) : DupPromptState :=
  if s.quitMode then s
  else if f ∈ s.fs then
    if s.removeAllMode then dupMove quarantinePath dryRun s f
    else
      match input s.idx with
      | .yes => dupMove quarantinePath dryRun { s with idx := s.idx + 1 } f
      | .all => dupMove quarantinePath dryRun
          { s with idx := s.idx + 1, removeAllMode := true } f
      | .quit => { s with idx := s.idx + 1, quitMode := true }
      | .no => { s with idx := s.idx + 1 }
      | .invalid => { s with idx := s.idx + 1 }
  else s

/-- The whole duplicates session (lines 407–465): every duplicate of every
set in order. -/
def runDupSession (input : Nat → Resp) (quarantinePath : String) (dryRun : Bool)
    (sets : List (String × List String)) (s0 : DupPromptState) : DupPromptState :=
  sets.foldl (fun s cd => cd.2.foldl (processDupFile input quarantinePath dryRun) s) s0

/-- Replace the first binding of `p` (or append a fresh one, as
`setdefault` does) and apply `f` to it. -/
def updateCacheEntry (cache : List (String × CacheEntry)) (p : String)
    (f : CacheEntry → CacheEntry) : List (String × CacheEntry) :=
  match cache with
  | [] => [(p, f ⟨none, none, none, none, none⟩)]
  | (q, e) :: rest =>
    if q = p then (q, f e) :: rest else (q, e) :: updateCacheEntry rest p f

/-- Set `low_bitrate_ignored` and refresh `mtime`/`size` from a stat oracle
(`none` models an `OSError` from the stat calls, which leaves the stat
fields alone). -/
def setIgnoredFlag (cache : List (String × CacheEntry)) (p : String)
    (stat : Option FileStat) (b : Bool) : List (String × CacheEntry) :=
  updateCacheEntry cache p (fun e =>
    match stat with
    | some st =>
      { e with low_bitrate_ignored := some b, mtime := some st.mtime, size := some st.size }
    | none => { e with low_bitrate_ignored := some b })

/-- State of the low-bitrate prompt loop: additionally carries the working
cache, whose `low_bitrate_ignored` flags the loop persists. -/
structure LbPromptState where
  fs : List String
  cache : List (String × CacheEntry)
  idx : Nat
  allMode : Bool
  quitMode : Bool
  quarantinedCount : Nat
deriving DecidableEq

/-- Perform the move of lines 1039–1041 and count it on success. -/
def lbMove (lowBrQuarantinePath : String) (dryRun : Bool) (s : LbPromptState)
    (f : String) : LbPromptState :=
  if (moveFileToQuarantine s.fs f lowBrQuarantinePath dryRun).1 then
    { s with fs := (moveFileToQuarantine s.fs f lowBrQuarantinePath dryRun).2,
             quarantinedCount := s.quarantinedCount + 1 }
  else
    { s with fs := (moveFileToQuarantine s.fs f lowBrQuarantinePath dryRun).2 }

/-- Processing of one low-bitrate candidate (lines 1005–1041): `y`/`a`
clear the ignore flag and move, `n` persists `low_bitrate_ignored = true`
against the fresh stat, `q` halts, anything else is skipped; `all_mode`
moves without prompting and without touching the cache. -/
def processLbFile (input : Nat → Resp) (stat : String → Option FileStat)
    (lowBrQuarantinePath : String) (dryRun : Bool) (s : LbPromptState)
    (f : String) : LbPromptState :=
  if s.quitMode then s
  else if f ∈ s.fs then
    if s.allMode then lbMove lowBrQuarantinePath dryRun s f
    else
      match input s.idx with
      | .yes => lbMove lowBrQuarantinePath dryRun
          { s with idx := s.idx + 1, cache := setIgnoredFlag s.cache f (stat f) false } f
      | .all => lbMove lowBrQuarantinePath dryRun
          { s with idx := s.idx + 1, allMode := true,
                   cache := setIgnoredFlag s.cache f (stat f) false } f
      | .quit => { s with idx := s.idx + 1, quitMode := true }
      | .no => { s with idx := s.idx + 1, cache := setIgnoredFlag s.cache f (stat f) true }
      | .invalid => { s with idx := s.idx + 1 }
  else s

/-- The whole low-bitrate session (lines 1005–1041). -/
def runLbSession (input : Nat → Resp) (stat : String → Option FileStat)
    (lowBrQuarantinePath : String) (dryRun : Bool) (files : List String)
    (s0 : LbPromptState) : LbPromptState :=
  files.foldl (processLbFile input stat lowBrQuarantinePath dryRun) s0

theorem processDupFile_quit (input : Nat → Resp) (qpath : String) (dry : Bool)
    (s : DupPromptState) (f : String) (h : s.quitMode = true) :
    processDupFile input qpath dry s f = s := by
  simp [processDupFile, h]

theorem foldl_processDupFile_quit (input : Nat → Resp) (qpath : String) (dry : Bool) :
    ∀ (l : List String) (s : DupPromptState), s.quitMode = true →
      l.foldl (processDupFile input qpath dry) s = s := by
  intro l
  induction l with
  | nil => intro s h; rfl
  | cons f rest ih =>
    intro s h
    rw [List.foldl_cons, processDupFile_quit input qpath dry s f h]
    exact ih s h

theorem runDupSession_quit (input : Nat → Resp) (qpath : String) (dry : Bool) :
    ∀ (sets : List (String × List String)) (s : DupPromptState), s.quitMode = true →
      runDupSession input qpath dry sets s = s := by
  intro sets
  induction sets with
  | nil => intro s h; rfl
  | cons cd rest ih =>
    intro s h
    rw [runDupSession, List.foldl_cons, foldl_processDupFile_quit input qpath dry cd.2 s h]
    exact ih s h

theorem processLbFile_quit (input : Nat → Resp) (stat : String → Option FileStat)
    (qpath : String) (dry : Bool) (s : LbPromptState) (f : String)
    (h : s.quitMode = true) :
    processLbFile input stat qpath dry s f = s := by
  simp [processLbFile, h]

theorem runLbSession_quit (input : Nat → Resp) (stat : String → Option FileStat)
    (qpath : String) (dry : Bool) :
    ∀ (files : List String) (s : LbPromptState), s.quitMode = true →
      runLbSession input stat qpath dry files s = s := by
  intro files
  induction files with
  | nil => intro s h; rfl
  | cons f rest ih =>
    intro s h
    rw [runLbSession, List.foldl_cons, processLbFile_quit input stat qpath dry s f h]
    exact ih s h

/-! ## C7 — quit halts the session -/

/-- C7: once the user answers `q`, the quit transition itself moves no file
and touches no cache entry (it only advances the input cursor and sets
`quit_mode`), and from a quit state every further file of the session — in
the duplicates loop and in the low-bitrate loop alike — is left untouched:
the file system, the working cache (hence every `low_bitrate_ignored`
flag), and the moved-count are unchanged. -/
theorem quit_halts_session :
    (∀ (input : Nat → Resp) (qpath : String) (dry : Bool) (s : DupPromptState)
        (f : String), s.quitMode = true → processDupFile input qpath dry s f = s)
    ∧ (∀ (input : Nat → Resp) (qpath : String) (dry : Bool)
        (sets : List (String × List String)) (s : DupPromptState),
        s.quitMode = true → runDupSession input qpath dry sets s = s)
    ∧ (∀ (input : Nat → Resp) (stat : String → Option FileStat) (qpath : String)
        (dry : Bool) (s : LbPromptState) (f : String),
        s.quitMode = true → processLbFile input stat qpath dry s f = s)
    ∧ (∀ (input : Nat → Resp) (stat : String → Option FileStat) (qpath : String)
        (dry : Bool) (files : List String) (s : LbPromptState),
        s.quitMode = true → runLbSession input stat qpath dry files s = s)
    ∧ (∀ (input : Nat → Resp) (qpath : String) (dry : Bool) (s : DupPromptState)
        (f : String), s.quitMode = false → s.removeAllMode = false → f ∈ s.fs →
        input s.idx = .quit →
        processDupFile input qpath dry s f = { s with idx := s.idx + 1, quitMode := true })
    ∧ (∀ (input : Nat → Resp) (stat : String → Option FileStat) (qpath : String)
        (dry : Bool) (s : LbPromptState) (f : String),
        s.quitMode = false → s.allMode = false → f ∈ s.fs →
        input s.idx = .quit →
        processLbFile input stat qpath dry s f
          = { s with idx := s.idx + 1, quitMode := true }) := by
  refine ⟨processDupFile_quit, runDupSession_quit, processLbFile_quit, runLbSession_quit,
    ?_, ?_⟩
  · intro input qpath dry s f hq hall hmem hinput
    simp [processDupFile, hq, hall, hmem, hinput]
  · intro input stat qpath dry s f hq hall hmem hinput
    simp [processLbFile, hq, hall, hmem, hinput]

/-! ## Atomic cache save (`save_fingerprint_cache`, lines 93–114) -/

/-- The two file-system locations the save touches: the cache file and its
temporary sibling `<cache>.tmp`; `none` means the path does not exist. -/
structure CacheSaveFS where
  cacheFile : Option String
  tempFile : Option String
deriving DecidableEq

/-- Outcome of `open` + `json.dump` into the temp file: `ok data` when the
dump completes with serialized content `data`; `failed written` when an
exception is raised part-way, with `written` the bytes (possibly none) that
made it into the temp file. -/
inductive SerializeOutcome where
  | ok (data : String)
  | failed (written : Option String)
deriving DecidableEq

/-- `save_fingerprint_cache` (lines 93–114): write the serialized cache to
the temporary sibling and `os.replace` it over the target; on any failure
remove the temporary file and leave the target alone. -/
def saveFingerprintCache (outcome : SerializeOutcome) (fs : CacheSaveFS) : CacheSaveFS :=
  match outcome with
  | .ok data =>
    { fs with cacheFile := some data, tempFile := none }
  | .failed _ =>
    { fs with tempFile := none }

/-! ## C8 — the cache save is atomic -/

/-- C8: a successful save serializes to the temporary sibling and renames
it over the target, leaving no temp file; a failed serialization or write
removes the temporary file and leaves the previously persisted cache file
byte-for-byte unchanged. -/
theorem save_cache_atomic :
    (∀ (data : String) (fs : CacheSaveFS),
        saveFingerprintCache (.ok data) fs
          = { fs with cacheFile := some data, tempFile := none })
    ∧ (∀ (written : Option String) (fs : CacheSaveFS),
        (saveFingerprintCache (.failed written) fs).cacheFile = fs.cacheFile
        ∧ (saveFingerprintCache (.failed written) fs).tempFile = none) :=
  ⟨fun _ _ => rfl, fun _ _ => ⟨rfl, rfl⟩⟩

/-! ## C10 — when no phase ran, the cache file is never written -/

/-- The save condition of lines 1113–1117:
`force or did_fingerprint_stage_run_attempted or
did_low_bitrate_scan_run_attempted`. -/
def shouldSaveCache (forceReFingerprint skipDuplicates canFingerprint
    skipLowBitrate : Bool) (lowBrResponse : String) : Bool :=
  forceReFingerprint || (!skipDuplicates && canFingerprint)
    || (!skipLowBitrate && decide (lowBrResponse.toLower = ("y")))

/-- The end-of-run save (lines 1117–1127): the cache file is written only
when the save condition holds and the pruned cache is nonempty. -/
def finalCacheSave (cond : Bool) (finalCache : List (String × CacheEntry))
    (outcome : SerializeOutcome) (fs : CacheSaveFS) : CacheSaveFS :=
  if cond then
    if finalCache.isEmpty then fs else saveFingerprintCache outcome fs
  else fs

/-- C10: with `--force-re-fingerprint` unset, the duplicate-detection phase
skipped or unavailable, and the low-bitrate scan skipped or declined, the
end-of-run save never writes the cache file: the on-disk state is exactly
what it was, and every in-memory working-cache update (pruning included) is
discarded. -/
theorem cache_not_saved_when_no_phase_ran
    (skipDuplicates canFingerprint skipLowBitrate : Bool) (lowBrResponse : String)
    (finalCache : List (String × CacheEntry)) (outcome : SerializeOutcome)
    (fs : CacheSaveFS)
    (h1 : skipDuplicates = true ∨ canFingerprint = false)
    (h2 : skipLowBitrate = true ∨ ¬ lowBrResponse.toLower = ("y")) :
    finalCacheSave
      (shouldSaveCache false skipDuplicates canFingerprint skipLowBitrate lowBrResponse)
      finalCache outcome fs = fs := by
  have hcond : shouldSaveCache false skipDuplicates canFingerprint skipLowBitrate
      lowBrResponse = false := by
    unfold shouldSaveCache
    rcases h1 with rfl | rfl <;> rcases h2 with rfl | h2
    · simp
    · simp [h2]
    · simp
    · simp [h2]
  rw [hcond]
  simp [finalCacheSave]

/-- Witness for `cache_not_saved_when_no_phase_ran`: everything skipped, an
empty pruned cache, and a failing serialization; the disk state is
untouched. -/
theorem cache_not_saved_when_no_phase_ran_witness :
    finalCacheSave (shouldSaveCache false true true true ("n")) [] (.failed none)
      ⟨some ("old"), none⟩ = ⟨some ("old"), none⟩ :=
  cache_not_saved_when_no_phase_ran true true true ("n") [] (.failed none)
    ⟨some ("old"), none⟩ (Or.inl rfl) (Or.inl rfl)

end Musicscan
